import Mathlib

/-!
# Verification of the 1Password audit engine (gradio/app.py, cli/audit_1password_expert.py)

A shallow embedding of the deterministic analysis core of the repository:

* `sanitize_json_input` (src/gradio/app.py, lines 90-174): JSON normalization,
  per-field redaction of `CONCEALED` values into a password analysis record,
  duplicate correlation by truncated SHA-256 fingerprint, and error handling.
* `detect_weak_patterns` (src/gradio/app.py, lines 177-204): weak-pattern tags.
* `generate_stats` (src/gradio/app.py, lines 308-357): the numeric part of the
  statistics summary.
* `run_audit` (src/gradio/app.py, lines 236-253): the input-validation part of
  the audit driver (the part before any network access).
* the `json.dumps(items, indent=2, ensure_ascii=False)` serialization used by
  `build_prompt` (src/gradio/app.py, line 218) to hand the sanitized items to
  the LLM prompt.

Modelling conventions:

* Python values decoded by `json.loads` are modelled by the inductive `Json`.
  A raw input string is modelled as `Except String Json`: `.error msg` stands
  for a `json.JSONDecodeError` with message `msg`, `.ok j` for a successful
  parse producing `j`.
* Python exceptions raised while processing (AttributeError / TypeError /
  ZeroDivisionError) are modelled with the `Except String` monad; the
  `try/except` of `sanitize_json_input` catches them.
* Python character-class predicates (`str.isupper` etc.) are modelled by the
  corresponding ASCII predicates on `Char`; `str.lower` by `String.toLower`.
  Secrets and the repository's own sample data are ASCII.
* `len` on a Python `str` counts code points, as does `String.length`.
* SHA-256 (`hashlib.sha256(value.encode()).hexdigest()`) is implemented in
  full over the UTF-8 bytes of the value (`sha256hex` below), with machine
  words as `Nat` reduced `% 2^32`; known test vectors are proved by `rfl`.
-/

/-- A JSON value, the result of Python's `json.loads`.  Object entries keep
insertion order, as Python dicts do. -/
inductive Json where
  | str : String → Json
  | num : Int → Json
  | bool : Bool → Json
  | null : Json
  | arr : List Json → Json
  | obj : List (String × Json) → Json
deriving Repr

mutual

/-- Structural equality of JSON values, modelling Python `==` on the values
that appear in this program (strings, lists, dicts, numbers, booleans,
`None`).  Cross-type comparison is `False`, as in Python for these shapes. -/
def Json.beq : Json → Json → Bool
  | .str a, .str b => a == b
  | .num a, .num b => a == b
  | .bool a, .bool b => a == b
  | .null, .null => true
  | .arr a, .arr b => Json.beqList a b
  | .obj a, .obj b => Json.beqObj a b
  | _, _ => false

def Json.beqList : List Json → List Json → Bool
  | [], [] => true
  | a :: as, b :: bs => Json.beq a b && Json.beqList as bs
  | _, _ => false

def Json.beqObj : List (String × Json) → List (String × Json) → Bool
  | [], [] => true
  | (k1, v1) :: as, (k2, v2) :: bs => k1 == k2 && Json.beq v1 v2 && Json.beqObj as bs
  | _, _ => false

end

instance : BEq Json := ⟨Json.beq⟩

mutual

theorem Json.eq_of_beq : ∀ {a b : Json}, Json.beq a b = true → a = b
  | .str a, .str b, h => by simp [Json.beq] at h; exact h ▸ rfl
  | .num a, .num b, h => by simp [Json.beq] at h; exact h ▸ rfl
  | .bool a, .bool b, h => by simp [Json.beq] at h; exact h ▸ rfl
  | .null, .null, _ => rfl
  | .arr a, .arr b, h => by
      rw [Json.beq] at h
      exact Json.eqList_of_beq h ▸ rfl
  | .obj a, .obj b, h => by
      rw [Json.beq] at h
      exact Json.eqObj_of_beq h ▸ rfl
  | .str _, .num _, h => by simp [Json.beq] at h
  | .str _, .bool _, h => by simp [Json.beq] at h
  | .str _, .null, h => by simp [Json.beq] at h
  | .str _, .arr _, h => by simp [Json.beq] at h
  | .str _, .obj _, h => by simp [Json.beq] at h
  | .num _, .str _, h => by simp [Json.beq] at h
  | .num _, .bool _, h => by simp [Json.beq] at h
  | .num _, .null, h => by simp [Json.beq] at h
  | .num _, .arr _, h => by simp [Json.beq] at h
  | .num _, .obj _, h => by simp [Json.beq] at h
  | .bool _, .str _, h => by simp [Json.beq] at h
  | .bool _, .num _, h => by simp [Json.beq] at h
  | .bool _, .null, h => by simp [Json.beq] at h
  | .bool _, .arr _, h => by simp [Json.beq] at h
  | .bool _, .obj _, h => by simp [Json.beq] at h
  | .null, .str _, h => by simp [Json.beq] at h
  | .null, .num _, h => by simp [Json.beq] at h
  | .null, .bool _, h => by simp [Json.beq] at h
  | .null, .arr _, h => by simp [Json.beq] at h
  | .null, .obj _, h => by simp [Json.beq] at h
  | .arr _, .str _, h => by simp [Json.beq] at h
  | .arr _, .num _, h => by simp [Json.beq] at h
  | .arr _, .bool _, h => by simp [Json.beq] at h
  | .arr _, .null, h => by simp [Json.beq] at h
  | .arr _, .obj _, h => by simp [Json.beq] at h
  | .obj _, .str _, h => by simp [Json.beq] at h
  | .obj _, .num _, h => by simp [Json.beq] at h
  | .obj _, .bool _, h => by simp [Json.beq] at h
  | .obj _, .null, h => by simp [Json.beq] at h
  | .obj _, .arr _, h => by simp [Json.beq] at h

theorem Json.eqList_of_beq : ∀ {a b : List Json}, Json.beqList a b = true → a = b
  | [], [], _ => rfl
  | a :: as, b :: bs, h => by
      rw [Json.beqList, Bool.and_eq_true] at h
      rw [Json.eq_of_beq h.1, Json.eqList_of_beq h.2]
  | [], _ :: _, h => by simp [Json.beqList] at h
  | _ :: _, [], h => by simp [Json.beqList] at h

theorem Json.eqObj_of_beq : ∀ {a b : List (String × Json)}, Json.beqObj a b = true → a = b
  | [], [], _ => rfl
  | (k1, v1) :: as, (k2, v2) :: bs, h => by
      rw [Json.beqObj, Bool.and_eq_true, Bool.and_eq_true] at h
      obtain ⟨⟨hk, hv⟩, hrest⟩ := h
      have hk2 : k1 = k2 := beq_iff_eq.mp hk
      rw [Json.eq_of_beq hv, Json.eqObj_of_beq hrest, hk2]
  | [], _ :: _, h => by simp [Json.beqObj] at h
  | _ :: _, [], h => by simp [Json.beqObj] at h

end

mutual

theorem Json.beq_refl : ∀ a : Json, Json.beq a a = true
  | .str a => by simp [Json.beq]
  | .num a => by simp [Json.beq]
  | .bool a => by simp [Json.beq]
  | .null => rfl
  | .arr a => by rw [Json.beq]; exact Json.beqList_refl a
  | .obj a => by rw [Json.beq]; exact Json.beqObj_refl a

theorem Json.beqList_refl : ∀ a : List Json, Json.beqList a a = true
  | [] => rfl
  | a :: as => by
      rw [Json.beqList, Bool.and_eq_true]
      exact ⟨Json.beq_refl a, Json.beqList_refl as⟩

theorem Json.beqObj_refl : ∀ a : List (String × Json), Json.beqObj a a = true
  | [] => rfl
  | (k, v) :: as => by
      rw [Json.beqObj, Bool.and_eq_true, Bool.and_eq_true]
      exact ⟨⟨beq_self_eq_true k, Json.beq_refl v⟩, Json.beqObj_refl as⟩

end

instance : LawfulBEq Json where
  eq_of_beq := Json.eq_of_beq
  rfl := Json.beq_refl _

instance : DecidableEq Json := fun a b =>
  if h : Json.beq a b = true then isTrue (Json.eq_of_beq h)
  else isFalse (fun e => h (e ▸ Json.beq_refl a))

/-- Python truthiness of a JSON value (`if value:`): empty string, zero,
`False`, `None`, empty list and empty dict are falsy. -/
def Json.truthy : Json → Bool
  | .str s => !s.isEmpty
  | .num n => n != 0
  | .bool b => b
  | .null => false
  | .arr xs => !xs.isEmpty
  | .obj kvs => !kvs.isEmpty

/-- First-match lookup in an (insertion-ordered, distinct-keyed) object. -/
def jlookup (kvs : List (String × Json)) (k : String) : Option Json :=
  (kvs.find? (fun kv => kv.1 == k)).map (fun kv => kv.2)

/-- Python iteration `for x in j`: lists yield elements, strings yield
1-character strings, dicts yield their keys; other values raise `TypeError`. -/
def Json.pyIter : Json → Except String (List Json)
  | .arr xs => .ok xs
  | .str s => .ok (s.data.map (fun c => Json.str (String.singleton c)))
  | .obj kvs => .ok (kvs.map (fun kv => Json.str kv.1))
  | _ => .error "TypeError: objeto is not iterable"

/-- Python slicing `value[:200]` (src/gradio/app.py line 152): strings and
lists are truncated, any other value raises `TypeError`. -/
def pySlice200 : Json → Except String Json
  | .str s => .ok (.str (s.take 200))
  | .arr l => .ok (.arr (l.take 200))
  | _ => .error "TypeError: valor sem suporte a slice"

/-! ## SHA-256 (model of `hashlib.sha256(value.encode()).hexdigest()`) -/

/-- `2^32`, the word size of SHA-256 arithmetic. -/
def w32 : Nat := 4294967296

/-- Rotate a 32-bit word right by `n`. -/
def rotr32 (n x : Nat) : Nat := ((x >>> n) ||| (x <<< (32 - n))) % w32

/-- UTF-8 encoding of one character (Python `str.encode()`). -/
def utf8Bytes (c : Char) : List Nat :=
  let n := c.toNat
  if n < 128 then [n]
  else if n < 2048 then [0xC0 ||| (n >>> 6), 0x80 ||| (n &&& 0x3F)]
  else if n < 65536 then
    [0xE0 ||| (n >>> 12), 0x80 ||| ((n >>> 6) &&& 0x3F), 0x80 ||| (n &&& 0x3F)]
  else
    [0xF0 ||| (n >>> 18), 0x80 ||| ((n >>> 12) &&& 0x3F),
     0x80 ||| ((n >>> 6) &&& 0x3F), 0x80 ||| (n &&& 0x3F)]

/-- UTF-8 bytes of a string. -/
def strBytes (s : String) : List Nat := (s.data.map utf8Bytes).flatten

/-- `k` big-endian bytes of `n`. -/
def beBytes (k n : Nat) : List Nat :=
  (List.range k).map (fun i => (n >>> (8 * (k - 1 - i))) % 256)

/-- SHA-256 message padding: `0x80`, zeros, then the 64-bit bit length. -/
def sha256Pad (msg : List Nat) : List Nat :=
  let L := msg.length
  let zeros := (64 - ((L + 9) % 64)) % 64
  msg ++ [0x80] ++ List.replicate zeros 0 ++ beBytes 8 (8 * L)

/-- Big-endian 32-bit word from up to 4 bytes. -/
def word32 (bs : List Nat) : Nat := bs.foldl (fun acc b => acc * 256 + b) 0

/-- The 16 initial schedule words of one 64-byte chunk. -/
def chunkWords (chunk : List Nat) : List Nat :=
  (List.range 16).map (fun i => word32 ((chunk.drop (4 * i)).take 4))

def smallSigma0 (x : Nat) : Nat := (rotr32 7 x) ^^^ (rotr32 18 x) ^^^ (x >>> 3)

def smallSigma1 (x : Nat) : Nat := (rotr32 17 x) ^^^ (rotr32 19 x) ^^^ (x >>> 10)

def bigSigma0 (x : Nat) : Nat := (rotr32 2 x) ^^^ (rotr32 13 x) ^^^ (rotr32 22 x)

def bigSigma1 (x : Nat) : Nat := (rotr32 6 x) ^^^ (rotr32 11 x) ^^^ (rotr32 25 x)

/-- Extend the 16 schedule words to 64. -/
def schedule (ws : List Nat) : List Nat :=
  (List.range 48).foldl
    (fun ws _ =>
      let n := ws.length
      ws ++ [(ws.getD (n - 16) 0 + smallSigma0 (ws.getD (n - 15) 0) +
              ws.getD (n - 7) 0 + smallSigma1 (ws.getD (n - 2) 0)) % w32])
    ws

/-- The 64 SHA-256 round constants (decimal). -/
def sha256K : List Nat :=
  [1116352408, 1899447441, 3049323471, 3921009573, 961987163,
   1508970993, 2453635748, 2870763221, 3624381080, 310598401,
   607225278, 1426881987, 1925078388, 2162078206, 2614888103,
   3248222580, 3835390401, 4022224774, 264347078, 604807628,
   770255983, 1249150122, 1555081692, 1996064986, 2554220882,
   2821834349, 2952996808, 3210313671, 3336571891, 3584528711,
   113926993, 338241895, 666307205, 773529912, 1294757372,
   1396182291, 1695183700, 1986661051, 2177026350, 2456956037,
   2730485921, 2820302411, 3259730800, 3345764771, 3516065817,
   3600352804, 4094571909, 275423344, 430227734, 506948616,
   659060556, 883997877, 958139571, 1322822218, 1537002063,
   1747873779, 1955562222, 2024104815, 2227730452, 2361852424,
   2428436474, 2756734187, 3204031479, 3329325298]

/-- One SHA-256 compression round on the 8-word state. -/
def compressStep (K W : Nat) (st : List Nat) : List Nat :=
  let a := st.getD 0 0
  let b := st.getD 1 0
  let c := st.getD 2 0
  let d := st.getD 3 0
  let e := st.getD 4 0
  let f := st.getD 5 0
  let g := st.getD 6 0
  let h := st.getD 7 0
  let ch := (e &&& f) ^^^ ((e ^^^ (w32 - 1)) &&& g)
  let t1 := (h + bigSigma1 e + ch + K + W) % w32
  let maj := (a &&& b) ^^^ (a &&& c) ^^^ (b &&& c)
  let t2 := (bigSigma0 a + maj) % w32
  [(t1 + t2) % w32, a, b, c, (d + t1) % w32, e, f, g]

/-- Process one 64-byte chunk. -/
def compressChunk (st : List Nat) (chunk : List Nat) : List Nat :=
  let W := schedule (chunkWords chunk)
  let fin := (List.range 64).foldl
    (fun s i => compressStep (sha256K.getD i 0) (W.getD i 0) s) st
  (List.range 8).map (fun i => (st.getD i 0 + fin.getD i 0) % w32)

/-- The eight SHA-256 initial state words (decimal). -/
def sha256Init : List Nat :=
  [1779033703, 3144134277, 1013904242, 2773480762,
   1359893119, 2600822924, 528734635, 1541459225]

/-- Split a byte list into 64-byte chunks (structural recursion on a fuel
bound so the kernel can evaluate it; one element is consumed per step, so
`l.length` fuel always suffices). -/
def chunksAux : Nat → List Nat → List (List Nat)
  | 0, _ => []
  | _, [] => []
  | fuel + 1, x :: xs => ((x :: xs).take 64) :: chunksAux fuel ((x :: xs).drop 64)

/-- Split a byte list into 64-byte chunks. -/
def chunks64 (l : List Nat) : List (List Nat) := chunksAux l.length l

/-- SHA-256 digest (32 bytes) of a byte message. -/
def sha256Bytes (msg : List Nat) : List Nat :=
  let final := (chunks64 (sha256Pad msg)).foldl compressChunk sha256Init
  (final.map (beBytes 4)).flatten

/-- One lowercase hex digit. -/
def hexDigit (n : Nat) : Char := if n < 10 then Char.ofNat (48 + n) else Char.ofNat (87 + n)

/-- Two lowercase hex digits of a byte. -/
def byteHex (b : Nat) : List Char := [hexDigit (b / 16), hexDigit (b % 16)]

/-- `hashlib.sha256(s.encode()).hexdigest()`: the 64-character lowercase hex
digest of the UTF-8 encoding of `s`. -/
def sha256hex (s : String) : String :=
  String.mk (((sha256Bytes (strBytes s)).map byteHex).flatten)

set_option maxRecDepth 8192

/-- Sanity check of the SHA-256 embedding: the NIST test vector for the empty
message. -/
theorem sha256hex_empty_vector :
    sha256hex "" = "e3b0c44298fc1c149afbf4c8996fb92427ae41e4649b934ca495991b7852b855" := by
  rfl

/-- Sanity check of the SHA-256 embedding: the NIST test vector for `"abc"`. -/
theorem sha256hex_abc_vector :
    sha256hex "abc" = "ba7816bf8f01cfea414140de5dae2223b00361a396177a9cb410ff61f20015ad" := by
  rfl

/-! ## Weak-pattern detector (`detect_weak_patterns`, src/gradio/app.py lines 177-204) -/

/-- The fixed sequence list of `detect_weak_patterns`. -/
def sequencesList : List String :=
  ["123", "234", "345", "456", "567", "678", "789", "890",
   "abc", "bcd", "cde", "def", "qwerty", "asdf"]

/-- The fixed weak-word list of `detect_weak_patterns`. -/
def weakWords : List String :=
  ["password", "admin", "root", "secret", "login", "user", "test"]

/-- Python `str.lower()` (ASCII model, matching `Char.toLower`), defined by
mapping over the character list so the kernel can evaluate it. -/
def pyLower (s : String) : String := String.mk (s.data.map Char.toLower)

/-- Is `needle` a prefix of the list? -/
def listPrefixOf : List Char → List Char → Bool
  | [], _ => true
  | _ :: _, [] => false
  | a :: as, b :: bs => a == b && listPrefixOf as bs

/-- Does `needle` occur as a contiguous sublist? -/
def listInfixOf (needle : List Char) : List Char → Bool
  | [] => needle.isEmpty
  | b :: bs => listPrefixOf needle (b :: bs) || listInfixOf needle bs

/-- Python substring membership `needle in hay`. -/
def pyContains (hay needle : String) : Bool := listInfixOf needle.data hay.data

/-- The tag `f"sequência '{seq}'"`. -/
def seqTag (seq : String) : String := "sequência \x27" ++ (seq ++ "\x27")

/-- The tag `f"palavra '{word}'"`. -/
def wordTag (w : String) : String := "palavra \x27" ++ (w ++ "\x27")

/-- One match attempt of the year regex `20[12][0-9]|19[89][0-9]` at a
position: the alternation accepts `201x`, `202x`, `198x`, `199x`. -/
def yearMatch (c1 c2 c3 c4 : Char) : Bool :=
  (c1 == '2' && c2 == '0' && (c3 == '1' || c3 == '2') && c4.isDigit) ||
  (c1 == '1' && c2 == '9' && (c3 == '8' || c3 == '9') && c4.isDigit)

/-- `re.findall(r"20[12][0-9]|19[89][0-9]", password)`: left-to-right,
non-overlapping matches (a match consumes its 4 characters). -/
def findYears : List Char → List String
  | c1 :: c2 :: c3 :: c4 :: rest =>
      if yearMatch c1 c2 c3 c4 then
        String.mk [c1, c2, c3, c4] :: findYears rest
      else
        findYears (c2 :: c3 :: c4 :: rest)
  | _ => []

/-- `re.search(r"(.)\1{2,}", password)`: three identical consecutive
characters; the regex `.` does not match a newline. -/
def hasTripleRun : List Char → Bool
  | a :: b :: c :: rest =>
      (!(a == '\n') && a == b && b == c) || hasTripleRun (b :: c :: rest)
  | _ => false

/-- `detect_weak_patterns` (src/gradio/app.py lines 177-204): sequence tags in
list order, then at most one year tag (only `years[0]` is reported), then
weak-word tags, then the repeated-characters tag. -/
def detect_weak_patterns (password : String) : List String :=
  let pwd_lower := pyLower password
  let seqTags := (sequencesList.filter (fun seq => pyContains pwd_lower seq)).map seqTag
  let yearTags : List String :=
    match findYears password.data with
    | [] => []
    | y :: _ => ["ano " ++ y]
  let wordTags := (weakWords.filter (fun w => pyContains pwd_lower w)).map wordTag
  let repTags : List String :=
    if hasTripleRun password.data then ["caracteres repetidos"] else []
  seqTags ++ yearTags ++ wordTags ++ repTags

/-! ## The sanitizer (`sanitize_json_input`, src/gradio/app.py lines 90-174) -/

/-- The persisted analysis of a `CONCEALED` field (the
`f_processed["password_analysis"]` dict built at src/gradio/app.py lines
142-150).  `is_duplicate` / `duplicate_ids` are `none` while the dict keys
are absent; the duplicate-marking pass (lines 158-167) fills them. -/
structure PasswordAnalysis where
  length : Nat
  has_upper : Bool
  has_lower : Bool
  has_digit : Bool
  has_symbol : Bool
  hash : String
  patterns : List String
  is_duplicate : Option Bool
  duplicate_ids : Option (List Json)
deriving Repr, DecidableEq

/-- One processed field (`f_processed`, src/gradio/app.py lines 123-152).
`value` is `some` only for the non-`CONCEALED` branch. -/
structure ProcessedField where
  id : Json
  label : Json
  ftype : Json
  purpose : Json
  value : Option Json
  password_analysis : Option PasswordAnalysis
deriving Repr, DecidableEq

/-- One processed item (`processed_item`, src/gradio/app.py lines 112-120). -/
structure ProcessedItem where
  id : Json
  title : Json
  category : Json
  tags : Json
  created_at : Json
  updated_at : Json
  fields : List ProcessedField
deriving Repr, DecidableEq

/-- The `password_hashes` dict: truncated fingerprint → list of item ids of
the contributing occurrences, in insertion order. -/
abbrev HState := List (String × List Json)

/-- `password_hashes[pwd_hash].append(id)` / `password_hashes[pwd_hash] = [id]`
(src/gradio/app.py lines 137-140). -/
def hstateAdd (st : HState) (h : String) (iid : Json) : HState :=
  if (st.find? (fun p => p.1 == h)).isSome then
    st.map (fun p => if p.1 == h then (p.1, p.2 ++ [iid]) else p)
  else
    st ++ [(h, [iid])]

/-- The id list recorded for a fingerprint (empty when absent). -/
def hlookup (st : HState) (h : String) : List Json :=
  ((st.find? (fun p => p.1 == h)).map (fun p => p.2)).getD []

/-- The analysis dict built for a truthy concealed string value
(src/gradio/app.py lines 142-150): length, the four character-class flags,
the truncated SHA-256 fingerprint, and the weak-pattern tags. -/
def analyzeSecret (s : String) : PasswordAnalysis :=
  { length := s.length,
    has_upper := s.data.any (fun c => c.isUpper),
    has_lower := s.data.any (fun c => c.isLower),
    has_digit := s.data.any (fun c => c.isDigit),
    has_symbol := s.data.any (fun c => !c.isAlphanum),
    hash := (sha256hex s).take 16,
    patterns := detect_weak_patterns s,
    is_duplicate := none,
    duplicate_ids := none }

/-- Process one raw field dict (the body of the `for field in
item.get("fields", [])` loop, src/gradio/app.py lines 122-154).  Returns
the processed field and the updated `password_hashes`.  A non-dict field
raises `AttributeError` at the first `field.get`; inside the concealed
branch a non-string truthy value raises at `value.encode()`. -/
def processField (itemId : Json) (st : HState) (fld : Json) :
    Except String (ProcessedField × HState) :=
  match fld with
  | .obj kvs =>
      let fid := (jlookup kvs "id").getD .null
      let flabel := (jlookup kvs "label").getD (.str "")
      let ftype := (jlookup kvs "type").getD (.str "STRING")
      let fpurpose := (jlookup kvs "purpose").getD .null
      let value := (jlookup kvs "value").getD (.str "")
      let ftypeRaw := (jlookup kvs "type").getD .null
      if ftypeRaw == Json.str "CONCEALED" && value.truthy then
        match value with
        | .str s =>
            let pwd_hash := (sha256hex s).take 16
            .ok ({ id := fid, label := flabel, ftype := ftype, purpose := fpurpose,
                   value := none,
                   password_analysis := some (analyzeSecret s) },
                 hstateAdd st pwd_hash itemId)
        | _ => .error "AttributeError: valor sem atributo encode"
      else if !(ftypeRaw == Json.str "CONCEALED") then
        match pySlice200 value with
        | .ok tv =>
            .ok ({ id := fid, label := flabel, ftype := ftype, purpose := fpurpose,
                   value := some tv, password_analysis := none }, st)
        | .error e => .error e
      else
        .ok ({ id := fid, label := flabel, ftype := ftype, purpose := fpurpose,
               value := none, password_analysis := none }, st)
  | _ => .error "AttributeError: objeto sem atributo get"

/-- Process the field list of one item. -/
def processFields (iid : Json) : HState → List Json → Except String (List ProcessedField × HState)
  | st, [] => .ok ([], st)
  | st, f :: fs =>
      match processField iid st f with
      | .error e => .error e
      | .ok (pf, st2) =>
          match processFields iid st2 fs with
          | .error e => .error e
          | .ok (pfs, st3) => .ok (pf :: pfs, st3)

/-- Process one raw item (loop body at src/gradio/app.py lines 111-156).
`n` is `len(processed)`, used for the synthetic fallback id.  A non-dict
item raises `AttributeError` at the first `item.get`; a non-iterable
`fields` value raises `TypeError` at the field loop. -/
def processItem (n : Nat) (st : HState) (item : Json) :
    Except String (ProcessedItem × HState) :=
  match item with
  | .obj kvs =>
      let iid := (jlookup kvs "id").getD (.str ("unknown_" ++ toString n))
      let ititle := (jlookup kvs "title").getD (.str "Sem título")
      let icat := (jlookup kvs "category").getD (.str "UNKNOWN")
      let itags := (jlookup kvs "tags").getD (.arr [])
      let icreated := (jlookup kvs "created_at").getD .null
      let iupdated := (jlookup kvs "updated_at").getD .null
      match ((jlookup kvs "fields").getD (.arr [])).pyIter with
      | .error e => .error e
      | .ok flds =>
          match processFields iid st flds with
          | .error e => .error e
          | .ok (pfs, st2) =>
              .ok ({ id := iid, title := ititle, category := icat, tags := itags,
                     created_at := icreated, updated_at := iupdated, fields := pfs }, st2)
  | _ => .error "AttributeError: objeto sem atributo get"

/-- Process every raw item, threading the index and `password_hashes`. -/
def processItems : Nat → HState → List Json → Except String (List ProcessedItem × HState)
  | _, st, [] => .ok ([], st)
  | n, st, it :: its =>
      match processItem n st it with
      | .error e => .error e
      | .ok (pi, st2) =>
          match processItems (n + 1) st2 its with
          | .error e => .error e
          | .ok (pis, st3) => .ok (pi :: pis, st3)

/-- Input normalization (src/gradio/app.py lines 97-105): a dict with an
`"items"` key contributes that value (iterated), any other dict is a single
item, a list is the item list, anything else is the `Formato inválido`
return (`none` here). -/
def normalizeItems : Json → Option (Except String (List Json))
  | .obj kvs =>
      match jlookup kvs "items" with
      | some j => some j.pyIter
      | none => some (.ok [Json.obj kvs])
  | .arr l => some (.ok l)
  | _ => none

/-- Duplicate-marking of one analysis (src/gradio/app.py lines 163-167). -/
def markPA (dups : HState) (pa : PasswordAnalysis) : PasswordAnalysis :=
  if (dups.find? (fun p => p.1 == pa.hash)).isSome then
    { pa with is_duplicate := some true, duplicate_ids := some (hlookup dups pa.hash) }
  else pa

/-- Duplicate-marking of one field. -/
def markField (dups : HState) (f : ProcessedField) : ProcessedField :=
  match f.password_analysis with
  | some pa => { f with password_analysis := some (markPA dups pa) }
  | none => f

/-- Duplicate-marking of one item. -/
def markItem (dups : HState) (it : ProcessedItem) : ProcessedItem :=
  { it with fields := it.fields.map (markField dups) }

/-- The duplicate-marking pass (src/gradio/app.py lines 158-167):
`duplicates = {h: ids for h, ids in password_hashes.items() if len(ids) > 1}`,
then every analysis whose hash is a duplicate gets `is_duplicate = True` and
`duplicate_ids = duplicates[h]` (the full group, own id included). -/
def markDuplicates (hashes : HState) (processed : List ProcessedItem) : List ProcessedItem :=
  let dups := hashes.filter (fun p => p.2.length > 1)
  if dups.isEmpty then processed else processed.map (markItem dups)

/-- `sanitize_json_input` (src/gradio/app.py lines 90-174).  The argument is
the `json.loads` outcome; `.error` is a `JSONDecodeError`.  Returns the
processed items and the error string (empty on success). -/
def sanitize_json_input (input : Except String Json) : List ProcessedItem × String :=
  match input with
  | .error e => ([], "JSON inválido: " ++ e)
  | .ok data =>
      match normalizeItems data with
      | none => ([], "Formato inválido: esperado objeto ou array JSON")
      | some (.error e) => ([], "Erro ao processar: " ++ e)
      | some (.ok items) =>
          match processItems 0 [] items with
          | .error e => ([], "Erro ao processar: " ++ e)
          | .ok (processed, hashes) => (markDuplicates hashes processed, "")

/-! ## Statistics (`generate_stats`, src/gradio/app.py lines 308-357) -/

/-- The numeric content of the statistics table.  The markdown rendering and
the float averages are elided; the division `has_tags/total*100` performed by
the f-string (line 342) is modelled by the `total = 0` error case of
`generate_stats`. -/
structure StatsData where
  total : Nat
  has_tags : Nat
  categories : List (Json × Nat)
  password_lengths : List Nat
  weak_passwords : Nat
  dup_group_count : Nat
deriving Repr, DecidableEq

/-- Accumulators of the `for item in items` loop of `generate_stats`. -/
structure StatsAcc where
  categories : List (Json × Nat)
  password_lengths : List Nat
  weak_passwords : Nat
  dup_hashes : List String
deriving Repr, DecidableEq

/-- Python hashability of the JSON values this program can use as dict
keys: strings, numbers, booleans and `None` are hashable; a list or dict
used as a key raises `TypeError: unhashable type`. -/
def Json.hashable : Json → Bool
  | .str _ => true
  | .num _ => true
  | .bool _ => true
  | .null => true
  | .arr _ => false
  | .obj _ => false

/-- `categories[cat] = categories.get(cat, 0) + 1` (src/gradio/app.py line
321), keeping insertion order.  `categories.get(cat, 0)` hashes the key, so
an unhashable category (a JSON list or dict, which `sanitize_json_input`
passes through unchanged) raises `TypeError` here. -/
def bumpCat (cats : List (Json × Nat)) (c : Json) : Except String (List (Json × Nat)) :=
  if c.hashable then
    .ok (if (cats.find? (fun p => p.1 == c)).isSome then
           cats.map (fun p => if p.1 == c then (p.1, p.2 + 1) else p)
         else cats ++ [(c, 1)])
  else .error "TypeError: unhashable type"

/-- The per-field body of the stats loop (src/gradio/app.py lines 323-332). -/
def statsField (acc : StatsAcc) (f : ProcessedField) : StatsAcc :=
  match f.password_analysis with
  | none => acc
  | some pa =>
      let acc1 := { acc with password_lengths := acc.password_lengths ++ [pa.length] }
      let acc2 :=
        if pa.length < 15 || !pa.patterns.isEmpty then
          { acc1 with weak_passwords := acc1.weak_passwords + 1 }
        else acc1
      if pa.is_duplicate == some true then
        if acc2.dup_hashes.contains pa.hash then acc2
        else { acc2 with dup_hashes := acc2.dup_hashes ++ [pa.hash] }
      else acc2

/-- The per-item body of the stats loop (src/gradio/app.py lines 319-332):
the category histogram update (which can raise `TypeError` on an unhashable
category) followed by the field loop. -/
def statsItem (acc : StatsAcc) (it : ProcessedItem) : Except String StatsAcc :=
  match bumpCat acc.categories it.category with
  | .error e => .error e
  | .ok cats => .ok (it.fields.foldl statsField { acc with categories := cats })

/-- The `for item in items` loop of `generate_stats`, threading the
accumulator and propagating a raised `TypeError`. -/
def statsItems : StatsAcc → List ProcessedItem → Except String StatsAcc
  | acc, [] => .ok acc
  | acc, it :: its =>
      match statsItem acc it with
      | .error e => .error e
      | .ok acc2 => statsItems acc2 its

/-- `generate_stats` (src/gradio/app.py lines 308-357): the counters.  The
counting loop runs first and raises `TypeError` on an unhashable category
(line 321); after it, the f-string divides `has_tags/total` (line 342), so
an empty item list fails with `ZeroDivisionError`. -/
def generate_stats (items : List ProcessedItem) : Except String StatsData :=
  let total := items.length
  let has_tags := (items.filter (fun i => i.tags.truthy)).length
  match statsItems ⟨[], [], 0, []⟩ items with
  | .error e => .error e
  | .ok acc =>
      if total = 0 then .error "ZeroDivisionError: division by zero"
      else .ok { total := total, has_tags := has_tags, categories := acc.categories,
                 password_lengths := acc.password_lengths,
                 weak_passwords := acc.weak_passwords,
                 dup_group_count := acc.dup_hashes.length }

/-- The input-validation part of `run_audit` (src/gradio/app.py lines
245-253): sanitize, return the validation error if any, then treat an empty
item list as an error.  Everything after this point performs network
access and is outside the model. -/
def run_audit_validate (input : Except String Json) : Except String (List ProcessedItem) :=
  let r := sanitize_json_input input
  if r.2 ≠ "" then .error ("❌ **Erro de validação:** " ++ r.2)
  else if r.1.isEmpty then .error "❌ **Erro:** Nenhum item encontrado no JSON"
  else .ok r.1

/-! ## Serialization (`json.dumps(items, indent=2, ensure_ascii=False)`,
src/gradio/app.py line 218, inside `build_prompt`) -/

/-- JSON string escaping as `json.dumps` with `ensure_ascii=False` does it:
quote, backslash and control characters escaped, everything else literal. -/
def jsonEscapeChar (c : Char) : List Char :=
  if c = '"' then ['\\', '"']
  else if c = '\\' then ['\\', '\\']
  else if c = '\n' then ['\\', 'n']
  else if c = '\t' then ['\\', 't']
  else if c = '\r' then ['\\', 'r']
  else if c.toNat = 8 then ['\\', 'b']
  else if c.toNat = 12 then ['\\', 'f']
  else if c.toNat < 32 then
    '\\' :: 'u' :: '0' :: '0' :: byteHex c.toNat
  else [c]

/-- A serialized JSON string literal. -/
def dumpStr (s : String) : String :=
  String.mk ('"' :: (s.data.map jsonEscapeChar).flatten ++ ['"'])

/-- `n` spaces. -/
def spaces (n : Nat) : String := String.mk (List.replicate n ' ')

/-- Join serialized elements: each on its own line at indent `ind`,
separated by `,`. -/
def joinElems (ind : Nat) (e : String) (es : List String) : String :=
  es.foldl (fun acc x => acc ++ ",\n" ++ spaces ind ++ x) (spaces ind ++ e)

mutual

/-- `json.dumps(j, indent=2, ensure_ascii=False)` where `j`'s own closing
bracket is indented by `ind` (Python's recursive `_iterencode`). -/
def dumpVal : Json → Nat → String
  | .str s, _ => dumpStr s
  | .num n, _ => toString n
  | .bool b, _ => if b then "true" else "false"
  | .null, _ => "null"
  | .arr xs, ind =>
      match dumpElems xs (ind + 2) with
      | [] => "[]"
      | e :: es => "[\n" ++ joinElems (ind + 2) e es ++ "\n" ++ spaces ind ++ "]"
  | .obj kvs, ind =>
      match dumpPairs kvs (ind + 2) with
      | [] => "\x7b\x7d"
      | e :: es => "\x7b\n" ++ joinElems (ind + 2) e es ++ "\n" ++ spaces ind ++ "\x7d"

/-- The serialized elements of an array, one string per element. -/
def dumpElems : List Json → Nat → List String
  | [], _ => []
  | x :: xs, ind => dumpVal x ind :: dumpElems xs ind

/-- The serialized `"key": value` entries of an object. -/
def dumpPairs : List (String × Json) → Nat → List String
  | [], _ => []
  | (k, v) :: kvs, ind => (dumpStr k ++ ": " ++ dumpVal v ind) :: dumpPairs kvs ind

end

/-- The `password_analysis` dict as a JSON value, in dict insertion order. -/
def paToJson (pa : PasswordAnalysis) : Json :=
  .obj
    ([("length", .num (pa.length : Int)), ("has_upper", .bool pa.has_upper),
      ("has_lower", .bool pa.has_lower), ("has_digit", .bool pa.has_digit),
      ("has_symbol", .bool pa.has_symbol), ("hash", .str pa.hash),
      ("patterns", .arr (pa.patterns.map Json.str))]
     ++ (match pa.is_duplicate with
         | some b => [("is_duplicate", .bool b)]
         | none => [])
     ++ (match pa.duplicate_ids with
         | some l => [("duplicate_ids", .arr l)]
         | none => []))

/-- The `f_processed` dict as a JSON value, in dict insertion order. -/
def fieldToJson (f : ProcessedField) : Json :=
  .obj
    ([("id", f.id), ("label", f.label), ("type", f.ftype), ("purpose", f.purpose)]
     ++ (match f.password_analysis with
         | some pa => [("password_analysis", paToJson pa)]
         | none => [])
     ++ (match f.value with
         | some v => [("value", v)]
         | none => []))

/-- The `processed_item` dict as a JSON value, in dict insertion order. -/
def itemToJson (it : ProcessedItem) : Json :=
  .obj
    [("id", it.id), ("title", it.title), ("category", it.category),
     ("tags", it.tags), ("created_at", it.created_at),
     ("updated_at", it.updated_at),
     ("fields", .arr (it.fields.map fieldToJson))]

/-- The serialized sanitized structure: the
`json.dumps(items, indent=2, ensure_ascii=False)` block that `build_prompt`
embeds in the LLM prompt (src/gradio/app.py line 218); `save_report` in the
CLI serializes the same sanitized shape to disk. -/
def dumpsItems (items : List ProcessedItem) : String :=
  dumpVal (.arr (items.map itemToJson)) 0

/-! ## Shape of parseable input (for the error-handling claim) -/

/-- A raw field dict that `sanitize_json_input` can process without an
exception: it must be a dict; a truthy `CONCEALED` value must be a string
(`value.encode()`); a non-`CONCEALED` value must support `value[:200]`. -/
def fieldOK (f : Json) : Bool :=
  match f with
  | .obj kvs =>
      let tpRaw := (jlookup kvs "type").getD .null
      let v := (jlookup kvs "value").getD (.str "")
      if tpRaw == Json.str "CONCEALED" && v.truthy then
        match v with
        | .str _ => true
        | _ => false
      else if !(tpRaw == Json.str "CONCEALED") then
        match v with
        | .str _ => true
        | .arr _ => true
        | _ => false
      else true
  | _ => false

/-- A raw item that `sanitize_json_input` can process without an exception:
a dict whose `fields` value is iterable and yields processable fields. -/
def itemOK (it : Json) : Bool :=
  match it with
  | .obj kvs =>
      match Json.pyIter ((jlookup kvs "fields").getD (.arr [])) with
      | .ok fs => fs.all fieldOK
      | .error _ => false
  | _ => false

/-- A parsed JSON document of the vault-item shape `sanitize_json_input`
expects: an items container (dict with iterable `"items"`, single dict, or
list) whose items are all processable. -/
def dataOK (data : Json) : Bool :=
  match data with
  | .obj kvs =>
      match jlookup kvs "items" with
      | some j =>
          match j.pyIter with
          | .ok its => its.all itemOK
          | .error _ => false
      | none => itemOK (.obj kvs)
  | .arr l => l.all itemOK
  | _ => false

/-- A parseable input: the text parsed as JSON and the document has the
expected shape. -/
def wellShaped (input : Except String Json) : Bool :=
  match input with
  | .ok d => dataOK d
  | .error _ => false

/-! ## Helper lemmas -/

theorem str_append_ne_empty (a b : String) (h : a ≠ "") : a ++ b ≠ "" := by
  intro he
  have hd := congrArg String.data he
  rw [String.data_append] at hd
  exact h (String.ext (List.append_eq_nil.mp hd).1)

theorem any_class_iff (p : Char → Bool) (s : String) :
    s.data.any p = true ↔ ∃ c ∈ s.data, p c = true := List.any_eq_true

theorem any_not_alnum_iff (s : String) :
    s.data.any (fun c => !c.isAlphanum) = true ↔ ∃ c ∈ s.data, c.isAlphanum = false := by
  rw [List.any_eq_true]
  constructor
  · rintro ⟨c, hc, h⟩
    exact ⟨c, hc, by revert h; cases c.isAlphanum <;> simp⟩
  · rintro ⟨c, hc, h⟩
    exact ⟨c, hc, by rw [h]; rfl⟩

theorem str_append_ne_of_head_ne (p q r t : String) (cp cr : Char)
    (hp : p.data.head? = some cp) (hr : r.data.head? = some cr) (hne : cp ≠ cr) :
    p ++ q ≠ r ++ t := by
  intro he
  have hd := congrArg String.data he
  rw [String.data_append, String.data_append] at hd
  have h1 : (p.data ++ q.data).head? = some cp := by
    cases hpd : p.data with
    | nil => rw [hpd] at hp; simp at hp
    | cons c l => rw [hpd] at hp; simp at hp; simp [hpd, hp]
  have h2 : (r.data ++ t.data).head? = some cr := by
    cases hrd : r.data with
    | nil => rw [hrd] at hr; simp at hr
    | cons c l => rw [hrd] at hr; simp at hr; simp [hrd, hr]
  rw [hd] at h1
  rw [h1] at h2
  exact hne (Option.some.inj h2)

/-! ## Claim C9: empty or missing concealed values are skipped -/

/-- **C9.** A `CONCEALED` field whose value is missing or the empty string is
skipped by the redaction step: the processed field carries no analysis and no
value, the `password_hashes` state is unchanged (so the field participates in
neither duplicate correlation nor statistics), and no error is raised. -/
theorem empty_concealed_skipped
    (kvs : List (String × Json)) (iid : Json) (st : HState)
    (htype : jlookup kvs "type" = some (Json.str "CONCEALED"))
    (hval : jlookup kvs "value" = none ∨ jlookup kvs "value" = some (Json.str "")) :
    processField iid st (.obj kvs) =
      .ok ({ id := (jlookup kvs "id").getD .null,
             label := (jlookup kvs "label").getD (.str ""),
             ftype := (jlookup kvs "type").getD (.str "STRING"),
             purpose := (jlookup kvs "purpose").getD .null,
             value := none, password_analysis := none }, st) := by
  have hv : (jlookup kvs "value").getD (Json.str "") = Json.str "" := by
    rcases hval with h | h <;> simp [h]
  simp [processField, htype, hv, Json.truthy]
  decide

/-- Witness for C9 at a concrete concealed field with a missing value. -/
theorem empty_concealed_skipped_witness :
    processField (Json.str "a") [] (.obj [("type", Json.str "CONCEALED")]) =
      .ok ({ id := Json.null, label := Json.str "", ftype := Json.str "CONCEALED",
             purpose := Json.null, value := none, password_analysis := none }, []) :=
  empty_concealed_skipped [("type", Json.str "CONCEALED")] (Json.str "a") []
    rfl (Or.inl rfl)

/-! ## Claim C10: non-concealed values are truncated to 200 characters -/

/-- **C10.** A non-`CONCEALED` field with a string value passes only the
first 200 characters of the value into the sanitized output (and nothing is
analyzed); a value of at most 200 characters passes through unchanged. -/
theorem plain_value_truncated_200
    (kvs : List (String × Json)) (s : String) (iid : Json) (st : HState)
    (htype : (jlookup kvs "type").getD Json.null ≠ Json.str "CONCEALED")
    (hval : jlookup kvs "value" = some (Json.str s)) :
    processField iid st (.obj kvs) =
      .ok ({ id := (jlookup kvs "id").getD .null,
             label := (jlookup kvs "label").getD (.str ""),
             ftype := (jlookup kvs "type").getD (.str "STRING"),
             purpose := (jlookup kvs "purpose").getD .null,
             value := some (Json.str (s.take 200)), password_analysis := none }, st) ∧
    (s.length ≤ 200 → s.take 200 = s) := by
  constructor
  · simp [processField, hval, pySlice200, htype]
  · intro hlen
    apply String.ext
    rw [String.data_take]
    exact List.take_of_length_le hlen

/-- Witness for C10: a 201-character string value is cut to its
200-character prefix, and a short one passes through unchanged. -/
theorem plain_value_truncated_200_witness :
    processField (Json.str "a") []
        (.obj [("type", Json.str "STRING"),
               ("value", Json.str (String.mk (List.replicate 201 'x')))]) =
      .ok ({ id := Json.null, label := Json.str "", ftype := Json.str "STRING",
             purpose := Json.null,
             value := some (Json.str ((String.mk (List.replicate 201 'x')).take 200)),
             password_analysis := none }, []) ∧
    ("abc".length ≤ 200 → "abc".take 200 = "abc") :=
  ⟨(plain_value_truncated_200 [("type", Json.str "STRING"),
      ("value", Json.str (String.mk (List.replicate 201 'x')))]
      (String.mk (List.replicate 201 'x')) (Json.str "a") [] (by decide) rfl).1,
   (plain_value_truncated_200 [("type", Json.str "STRING"), ("value", Json.str "abc")]
      "abc" (Json.str "a") [] (by decide) rfl).2⟩

/-! ## Claim C1: no secret leaks into the serialized output -/

/-- **C1 (amended).** The redaction step never stores a `CONCEALED` field's
value: whatever the value is, the processed field for a field whose raw
`type` is `CONCEALED` has no `value` entry — only (for a truthy string
value) the analysis record.  This is the structural no-leak guarantee; the
literal no-substring property of the claim fails only when the secret
coincides with non-secret text (see the counterexample). -/
theorem concealed_field_never_carries_value
    (kvs : List (String × Json)) (iid : Json) (st : HState)
    (htype : jlookup kvs "type" = some (Json.str "CONCEALED")) :
    ∀ pf st2, processField iid st (.obj kvs) = .ok (pf, st2) → pf.value = none := by
  intro pf st2 h
  by_cases ht : ((jlookup kvs "value").getD (Json.str "")).truthy = true
  · rcases hv : (jlookup kvs "value").getD (Json.str "") with s | n | b | _ | l | o <;>
      rw [hv] at ht <;>
      simp [processField, htype, hv, ht] at h
    obtain ⟨h1, _⟩ := h
    rw [← h1]
  · rw [Bool.not_eq_true] at ht
    simp [processField, htype, ht] at h
    obtain ⟨h1, _⟩ := h
    rw [← h1]

/-- Witness for C1 at a concrete concealed field. -/
theorem concealed_field_never_carries_value_witness :
    ({ id := Json.null, label := Json.str "", ftype := Json.str "CONCEALED",
       purpose := Json.null, value := none,
       password_analysis := none } : ProcessedField).value = none :=
  concealed_field_never_carries_value [("type", Json.str "CONCEALED")] (Json.str "a") []
    rfl _ [] rfl

/-- A concrete input whose concealed secret is the string `"id"`: one item
whose single field is `{"type": "CONCEALED", "value": "id"}`. -/
def leakInput : Json :=
  .arr [.obj [("id", .str "x"),
              ("fields", .arr [.obj [("type", .str "CONCEALED"),
                                     ("value", .str "id")]])]]

/-- **C1 counterexample.** The no-substring property is false as universally
stated: for the input `leakInput` the sanitize step succeeds, yet the
serialized output handed to the prompt builder contains the substring `"id"`
— the raw value of the concealed field — because that string coincides with
the JSON key `"id"` of the sanitized structure.  (The value itself was
redacted; the occurrence comes from non-secret text.) -/
theorem serialized_output_contains_secret_counterexample :
    (sanitize_json_input (.ok leakInput)).2 = "" ∧
    listInfixOf "id".data (dumpsItems (sanitize_json_input (.ok leakInput)).1).data = true := by
  constructor
  · rfl
  · rfl

/-! ## Claim C3: the secret analysis of a non-empty concealed value -/

/-- **C3.** For every non-empty string value of a `CONCEALED` field, the
produced analysis has `length` equal to the character count of the value,
each character-class flag set exactly when a character of that class occurs,
and the fingerprint equal to the first 16 hex characters of the SHA-256
digest of the value.  `analyzeSecret` is a pure function of the value alone
and the statement holds for every state, item id and field dict, so repeated
calls with the same value produce the identical fingerprint. -/
theorem secret_analysis_fields_correct
    (kvs : List (String × Json)) (s : String) (iid : Json) (st : HState)
    (htype : jlookup kvs "type" = some (Json.str "CONCEALED"))
    (hval : jlookup kvs "value" = some (Json.str s))
    (hne : s ≠ "") :
    (∃ pf st2, processField iid st (.obj kvs) = .ok (pf, st2) ∧
       pf.password_analysis = some (analyzeSecret s)) ∧
    (analyzeSecret s).length = s.length ∧
    ((analyzeSecret s).has_upper = true ↔ ∃ c ∈ s.data, c.isUpper = true) ∧
    ((analyzeSecret s).has_lower = true ↔ ∃ c ∈ s.data, c.isLower = true) ∧
    ((analyzeSecret s).has_digit = true ↔ ∃ c ∈ s.data, c.isDigit = true) ∧
    ((analyzeSecret s).has_symbol = true ↔ ∃ c ∈ s.data, c.isAlphanum = false) ∧
    (analyzeSecret s).hash = (sha256hex s).take 16 := by
  have hie : s.isEmpty = false := by
    cases h2 : s.isEmpty with
    | false => rfl
    | true => exact absurd ((String.isEmpty_iff s).mp h2) hne
  have htruthy : (Json.str s).truthy = true := by simp [Json.truthy, hie]
  refine ⟨⟨{ id := (jlookup kvs "id").getD .null,
             label := (jlookup kvs "label").getD (.str ""),
             ftype := (jlookup kvs "type").getD (.str "STRING"),
             purpose := (jlookup kvs "purpose").getD .null,
             value := none, password_analysis := some (analyzeSecret s) },
           hstateAdd st ((sha256hex s).take 16) iid, ?_, rfl⟩, rfl,
    any_class_iff _ s, any_class_iff _ s, any_class_iff _ s, any_not_alnum_iff s,
    by simp only [analyzeSecret]⟩
  simp [processField, htype, hval, htruthy, analyzeSecret]

/-- Witness for C3 at the concrete secret `"Ab1!"`. -/
theorem secret_analysis_fields_correct_witness :
    (∃ pf st2,
      processField (Json.str "i") []
        (.obj [("type", Json.str "CONCEALED"), ("value", Json.str "Ab1!")]) =
          .ok (pf, st2) ∧
      pf.password_analysis = some (analyzeSecret "Ab1!")) ∧
    (analyzeSecret "Ab1!").length = "Ab1!".length ∧
    ((analyzeSecret "Ab1!").has_upper = true ↔ ∃ c ∈ "Ab1!".data, c.isUpper = true) ∧
    ((analyzeSecret "Ab1!").has_lower = true ↔ ∃ c ∈ "Ab1!".data, c.isLower = true) ∧
    ((analyzeSecret "Ab1!").has_digit = true ↔ ∃ c ∈ "Ab1!".data, c.isDigit = true) ∧
    ((analyzeSecret "Ab1!").has_symbol = true ↔ ∃ c ∈ "Ab1!".data, c.isAlphanum = false) ∧
    (analyzeSecret "Ab1!").hash = (sha256hex "Ab1!").take 16 :=
  secret_analysis_fields_correct
    [("type", Json.str "CONCEALED"), ("value", Json.str "Ab1!")]
    "Ab1!" (Json.str "i") [] rfl rfl (by decide)

/-! ## Claim C5: behavior on the empty input item set -/

/-- **C5 counterexample.** On the empty item set the engine does not produce
a zero-count summary without error: `generate_stats []` fails with a
division by zero (the tag-coverage percentage divides by `total`), and
`run_audit` rejects the validated-but-empty item list with an error message
before statistics are ever computed. -/
theorem empty_input_error_counterexample :
    generate_stats [] = .error "ZeroDivisionError: division by zero" ∧
    run_audit_validate (.ok (.arr [])) = .error "❌ **Erro:** Nenhum item encontrado no JSON" :=
  ⟨rfl, rfl⟩

/-- **C5 (amended).** For the empty input item set, sanitization itself
succeeds with an empty item list and no error, but `run_audit` then returns
the `Nenhum item encontrado` error without computing statistics, and the
statistics computation applied to the empty list fails with
`ZeroDivisionError` instead of returning all-zero counts. -/
theorem empty_input_behavior :
    sanitize_json_input (.ok (.arr [])) = ([], "") ∧
    run_audit_validate (.ok (.arr [])) = .error "❌ **Erro:** Nenhum item encontrado no JSON" ∧
    generate_stats [] = .error "ZeroDivisionError: division by zero" :=
  ⟨rfl, rfl, rfl⟩

/-! ## Claim C6: single vault versus a sequence of vaults -/

/-- **C6 (amended).** A dict with an `"items"` list is processed exactly as
the flat list of those items, so all items given in one call are correlated
together.  (A *sequence of vault objects*, by contrast, is treated as a list
of items — see the counterexample.) -/
theorem vault_object_items_equivalence
    (kvs : List (String × Json)) (l : List Json)
    (h : jlookup kvs "items" = some (Json.arr l)) :
    sanitize_json_input (.ok (.obj kvs)) = sanitize_json_input (.ok (.arr l)) := by
  simp [sanitize_json_input, normalizeItems, h, Json.pyIter]

/-- Witness for C6: a concrete vault object and its item list sanitize
identically. -/
theorem vault_object_items_equivalence_witness :
    sanitize_json_input (.ok (.obj [("vault_name", Json.str "v"),
                                    ("items", Json.arr [Json.obj [("id", Json.str "a")]])])) =
    sanitize_json_input (.ok (.arr [Json.obj [("id", Json.str "a")]])) :=
  vault_object_items_equivalence
    [("vault_name", Json.str "v"), ("items", Json.arr [Json.obj [("id", Json.str "a")]])]
    [Json.obj [("id", Json.str "a")]] rfl

/-- One vault object of a two-vault export: its nested single item carries
the concealed value `"Pass1234"`. -/
def vaultWithSecret (iid : String) : Json :=
  .obj [("vault_name", .str "v"),
        ("items", .arr [.obj [("id", .str iid),
                              ("fields", .arr [.obj [("type", .str "CONCEALED"),
                                                     ("value", .str "Pass1234")]])]])]

/-- **C6 counterexample.** A sequence of vaults in one call is *not*
processed item-wise: each vault object is itself treated as an item, its
nested items are ignored (every processed item has an empty field list), so
the duplicate `"Pass1234"` shared across the two vaults is not detected
anywhere in the output. -/
theorem vault_sequence_counterexample :
    (sanitize_json_input (.ok (.arr [vaultWithSecret "a", vaultWithSecret "b"]))).2 = "" ∧
    ((sanitize_json_input (.ok (.arr [vaultWithSecret "a", vaultWithSecret "b"]))).1.all
      (fun it => it.fields.isEmpty)) = true :=
  ⟨rfl, rfl⟩

/-! ## Claim C8: the weak-password count -/

/-- The weakness predicate of the statistics loop (src/gradio/app.py line
328): an analyzed secret whose length is below 15 or whose detected pattern
list is non-empty. -/
def isWeakField (f : ProcessedField) : Bool :=
  match f.password_analysis with
  | some pa => decide (pa.length < 15) || !pa.patterns.isEmpty
  | none => false

theorem statsField_weak (acc : StatsAcc) (f : ProcessedField) :
    (statsField acc f).weak_passwords =
      acc.weak_passwords + (if isWeakField f then 1 else 0) := by
  cases hpa : f.password_analysis with
  | none => simp [statsField, isWeakField, hpa]
  | some pa =>
      simp only [statsField, isWeakField, hpa]
      split_ifs <;> simp_all

theorem foldl_statsField_weak (fs : List ProcessedField) (acc : StatsAcc) :
    (fs.foldl statsField acc).weak_passwords =
      acc.weak_passwords + List.countP isWeakField fs := by
  induction fs generalizing acc with
  | nil => simp
  | cons f fs ih =>
      rw [List.foldl_cons, ih, statsField_weak, List.countP_cons]
      omega

theorem statsItem_ok (acc : StatsAcc) (it : ProcessedItem)
    (hcat : it.category.hashable = true) :
    ∃ cats, statsItem acc it =
      .ok (it.fields.foldl statsField { acc with categories := cats }) := by
  rw [statsItem, bumpCat, if_pos hcat]
  exact ⟨_, rfl⟩

theorem statsItems_weak : ∀ (items : List ProcessedItem) (acc : StatsAcc),
    (∀ it ∈ items, it.category.hashable = true) →
    ∃ acc2, statsItems acc items = .ok acc2 ∧
      acc2.weak_passwords = acc.weak_passwords +
        (items.map (fun it => List.countP isWeakField it.fields)).sum
  | [], acc, _ => ⟨acc, rfl, by simp⟩
  | it :: its, acc, hcat => by
      obtain ⟨cats, hok⟩ := statsItem_ok acc it (hcat it (List.mem_cons_self _ _))
      obtain ⟨acc2, hok2, hw⟩ := statsItems_weak its
        (it.fields.foldl statsField { acc with categories := cats })
        (fun x hx => hcat x (List.mem_cons_of_mem _ hx))
      refine ⟨acc2, ?_, ?_⟩
      · rw [statsItems, hok]
        exact hok2
      · rw [hw, foldl_statsField_weak]
        simp
        omega

/-- **C8.** For every non-empty processed item set whose categories are
hashable values (a JSON list or dict category makes the statistics loop
raise `TypeError` before any summary exists), the summary's weak-password
count equals the number of analyzed secrets (fields carrying a password
analysis) whose length is strictly below 15 or whose detected weakness-tag
list is non-empty. -/
theorem weak_password_count_correct (items : List ProcessedItem) (h : items ≠ [])
    (hcat : ∀ it ∈ items, it.category.hashable = true) :
    ∃ d, generate_stats items = .ok d ∧
      d.weak_passwords =
        (items.map (fun it => List.countP isWeakField it.fields)).sum := by
  have hlen : items.length ≠ 0 := by
    intro h0
    exact h (List.length_eq_zero.mp h0)
  obtain ⟨acc2, hok, hw⟩ := statsItems_weak items ⟨[], [], 0, []⟩ hcat
  rw [generate_stats, hok]
  dsimp only
  rw [if_neg hlen]
  refine ⟨_, rfl, ?_⟩
  rw [hw]
  simp

/-- A concrete processed item with one weak analyzed secret, for the C8
witness. -/
def statsWitnessItem : ProcessedItem :=
  { id := Json.str "a", title := Json.str "t", category := Json.str "LOGIN",
    tags := Json.arr [], created_at := Json.null, updated_at := Json.null,
    fields := [{ id := Json.null, label := Json.str "password",
                 ftype := Json.str "CONCEALED", purpose := Json.null, value := none,
                 password_analysis := some (analyzeSecret "Pass1234") }] }

/-- Witness for C8 on a concrete one-item set with a hashable category. -/
theorem weak_password_count_correct_witness :
    ∃ d, generate_stats [statsWitnessItem] = .ok d ∧
      d.weak_passwords =
        ([statsWitnessItem].map (fun it => List.countP isWeakField it.fields)).sum :=
  weak_password_count_correct [statsWitnessItem] (List.cons_ne_nil _ _) (by decide)

/-- The `TypeError` path of the statistics loop is real: an item whose
category is a JSON list — which `sanitize_json_input` passes through
unchanged — makes `generate_stats` fail before producing any summary. -/
theorem unhashable_category_stats_error :
    generate_stats [{ statsWitnessItem with category := Json.arr [] }] =
      .error "TypeError: unhashable type" := rfl

/-! ## Claim C2: duplicate correlation -/

theorem find?_filter_keep {α : Type} (p pred : α → Bool) :
    ∀ (l : List α) (x : α), l.find? p = some x → pred x = true →
      (l.filter pred).find? p = some x
  | [], x, h, _ => by simp at h
  | a :: l, x, h, hx => by
      by_cases hpa : p a = true
      · rw [List.find?_cons_of_pos _ hpa] at h
        injection h with h
        subst h
        rw [List.filter_cons_of_pos hx, List.find?_cons_of_pos _ hpa]
      · rw [List.find?_cons_of_neg _ (by simp [hpa])] at h
        by_cases hpra : pred a = true
        · rw [List.filter_cons_of_pos hpra, List.find?_cons_of_neg _ (by simp [hpa])]
          exact find?_filter_keep p pred l x h hx
        · rw [List.filter_cons_of_neg (by simp [hpra])]
          exact find?_filter_keep p pred l x h hx

theorem hlookup_pos_find (st : HState) (h : String)
    (hdup : 1 ≤ (hlookup st h).length) :
    ∃ p, st.find? (fun q => q.1 == h) = some p ∧ p.2 = hlookup st h := by
  cases hf : st.find? (fun q => q.1 == h) with
  | none => rw [hlookup, hf] at hdup; simp at hdup
  | some p => exact ⟨p, rfl, by rw [hlookup, hf]; rfl⟩

theorem markPA_hash (d : HState) (x : PasswordAnalysis) :
    (markPA d x).hash = x.hash := by
  rw [markPA]; split <;> rfl

theorem markDuplicates_marks (st : HState) (processed : List ProcessedItem)
    (it : ProcessedItem) (f : ProcessedField) (pa : PasswordAnalysis)
    (hit : it ∈ markDuplicates st processed) (hf : f ∈ it.fields)
    (hpa : f.password_analysis = some pa)
    (hdup : 2 ≤ (hlookup st pa.hash).length) :
    pa.is_duplicate = some true ∧ pa.duplicate_ids = some (hlookup st pa.hash) := by
  obtain ⟨p, hfind, hp2⟩ :=
    hlookup_pos_find st pa.hash (Nat.le_trans (by norm_num) hdup)
  have hpred : (fun q : String × List Json => decide (q.2.length > 1)) p = true := by
    simp only [decide_eq_true_eq]
    rw [hp2]
    omega
  have hfind2 : ((st.filter (fun q => decide (q.2.length > 1))).find?
      (fun q => q.1 == pa.hash)) = some p :=
    find?_filter_keep _ _ st p hfind hpred
  have hne : (st.filter (fun q => decide (q.2.length > 1))).isEmpty = false := by
    cases hfl : st.filter (fun q => decide (q.2.length > 1)) with
    | nil => rw [hfl] at hfind2; simp at hfind2
    | cons a l => rfl
  have hlkd : hlookup (st.filter (fun q => decide (q.2.length > 1))) pa.hash
      = hlookup st pa.hash := by
    rw [hlookup, hlookup, hfind2, hfind]
  rw [markDuplicates] at hit
  simp only [hne, Bool.false_eq_true, if_false] at hit
  obtain ⟨it0, hit0, rfl⟩ := List.mem_map.mp hit
  simp only [markItem] at hf
  obtain ⟨f0, hf0, rfl⟩ := List.mem_map.mp hf
  cases hpa0 : f0.password_analysis with
  | none =>
      rw [markField, hpa0] at hpa
      rw [hpa0] at hpa
      simp at hpa
  | some pa0 =>
      rw [markField, hpa0] at hpa
      simp only [Option.some.injEq] at hpa
      have hhash : pa.hash = pa0.hash := by rw [← hpa, markPA_hash]
      rw [hhash] at hfind2 hlkd ⊢
      rw [← hpa, markPA, hfind2]
      simp only [Option.isSome_some, if_true]
      exact ⟨by simp, by simp [hlkd]⟩

/-- **C2 (amended).** After duplicate correlation, every analysis whose
fingerprint was recorded at least twice in the `password_hashes` state of the
run is marked `is_duplicate = true`, and its `duplicate_ids` is the *full*
occurrence group of that fingerprint — including the item's own id — not the
group minus itself as the claim states (see the counterexample). -/
theorem duplicate_marking_full_group
    (data : Json) (itemsJ : List Json) (processed : List ProcessedItem) (st : HState)
    (hn : normalizeItems data = some (.ok itemsJ))
    (hp : processItems 0 [] itemsJ = .ok (processed, st))
    (it : ProcessedItem) (f : ProcessedField) (pa : PasswordAnalysis)
    (hit : it ∈ (sanitize_json_input (.ok data)).1)
    (hf : f ∈ it.fields) (hpa : f.password_analysis = some pa)
    (hdup : 2 ≤ (hlookup st pa.hash).length) :
    pa.is_duplicate = some true ∧ pa.duplicate_ids = some (hlookup st pa.hash) := by
  have hs : (sanitize_json_input (.ok data)).1 = markDuplicates st processed := by
    simp [sanitize_json_input, hn, hp]
  rw [hs] at hit
  exact markDuplicates_marks st processed it f pa hit hf hpa hdup

/-- One raw input item whose single field holds the concealed value
`"Pass1234"`. -/
def dupItemJ (iid : String) : Json :=
  .obj [("id", .str iid), ("title", .str "t"), ("category", .str "DATABASE"),
        ("fields", .arr [.obj [("id", .str "f1"), ("label", .str "password"),
                               ("type", .str "CONCEALED"), ("value", .str "Pass1234")]])]

/-- Two items sharing the password `"Pass1234"`. -/
def dupInput : Json := .arr [dupItemJ "a", dupItemJ "b"]

/-- The analysis of `"Pass1234"` after duplicate marking: the full group
`["a", "b"]`, own id included. -/
def dupMarkedPA : PasswordAnalysis :=
  { analyzeSecret "Pass1234" with
    is_duplicate := some true,
    duplicate_ids := some [Json.str "a", Json.str "b"] }

/-- The processed (unmarked) item for `dupItemJ iid`. -/
def dupProcItem (iid : String) : ProcessedItem :=
  { id := Json.str iid, title := Json.str "t", category := Json.str "DATABASE",
    tags := Json.arr [], created_at := Json.null, updated_at := Json.null,
    fields := [{ id := Json.str "f1", label := Json.str "password",
                 ftype := Json.str "CONCEALED", purpose := Json.null, value := none,
                 password_analysis := some (analyzeSecret "Pass1234") }] }

/-- The processed item after duplicate marking. -/
def dupMarkedItem (iid : String) : ProcessedItem :=
  { id := Json.str iid, title := Json.str "t", category := Json.str "DATABASE",
    tags := Json.arr [], created_at := Json.null, updated_at := Json.null,
    fields := [{ id := Json.str "f1", label := Json.str "password",
                 ftype := Json.str "CONCEALED", purpose := Json.null, value := none,
                 password_analysis := some dupMarkedPA }] }

/-- The `password_hashes` state after processing `dupInput`. -/
def dupState : HState :=
  [((sha256hex "Pass1234").take 16, [Json.str "a", Json.str "b"])]

/-- Witness for C2 on the concrete two-item duplicate group. -/
theorem duplicate_marking_full_group_witness :
    dupMarkedPA.is_duplicate = some true ∧
    dupMarkedPA.duplicate_ids = some (hlookup dupState dupMarkedPA.hash) :=
  duplicate_marking_full_group dupInput [dupItemJ "a", dupItemJ "b"]
    [dupProcItem "a", dupProcItem "b"] dupState rfl rfl
    (dupMarkedItem "a")
    { id := Json.str "f1", label := Json.str "password",
      ftype := Json.str "CONCEALED", purpose := Json.null, value := none,
      password_analysis := some dupMarkedPA }
    dupMarkedPA
    (by rw [show (sanitize_json_input (.ok dupInput)).1 =
          [dupMarkedItem "a", dupMarkedItem "b"] from rfl]
        exact List.mem_cons_self _ _)
    (List.mem_cons_self _ _)
    rfl
    (by decide)

/-- **C2 counterexample.** The claim as stated is false: in the two-item
group `{a, b}` sharing `"Pass1234"`, item `a`'s analysis has
`duplicate_ids = ["a", "b"]` — the full group including its own id — whereas
the claim requires the group minus the item's own id, `["b"]`. -/
theorem duplicate_ids_include_own_id_counterexample :
    (sanitize_json_input (.ok dupInput)).1 = [dupMarkedItem "a", dupMarkedItem "b"] ∧
    dupMarkedPA.duplicate_ids = some [Json.str "a", Json.str "b"] ∧
    (some [Json.str "a", Json.str "b"] : Option (List Json)) ≠ some [Json.str "b"] :=
  ⟨rfl, rfl, by decide⟩

/-! ## Claim C4: the year detector -/

/-- The numeric value of four digit characters. -/
def fourDigitVal (c1 c2 c3 c4 : Char) : Nat :=
  (c1.toNat - 48) * 1000 + (c2.toNat - 48) * 100 + (c3.toNat - 48) * 10 + (c4.toNat - 48)

/-- Does the year regex match at some position of the character list? -/
def containsYearMatch : List Char → Bool
  | c1 :: c2 :: c3 :: c4 :: rest =>
      yearMatch c1 c2 c3 c4 || containsYearMatch (c2 :: c3 :: c4 :: rest)
  | _ => false

theorem isDigit_bounds {c : Char} (h : c.isDigit = true) :
    48 ≤ c.toNat ∧ c.toNat ≤ 57 := by
  simp [Char.isDigit] at h
  exact h

theorem char_eq_of_toNat (c d : Char) (h : c.toNat = d.toNat) : c = d :=
  Char.ext (UInt32.ext h)

/-- The year regex alternation accepts exactly the 4-digit numbers in
1980–1999 and 2010–2029 (in particular, none of 2000–2009). -/
theorem yearMatch_iff (c1 c2 c3 c4 : Char) :
    yearMatch c1 c2 c3 c4 = true ↔
      (c1.isDigit = true ∧ c2.isDigit = true ∧ c3.isDigit = true ∧ c4.isDigit = true ∧
       ((1980 ≤ fourDigitVal c1 c2 c3 c4 ∧ fourDigitVal c1 c2 c3 c4 ≤ 1999) ∨
        (2010 ≤ fourDigitVal c1 c2 c3 c4 ∧ fourDigitVal c1 c2 c3 c4 ≤ 2029))) := by
  constructor
  · intro h
    simp only [yearMatch, Bool.or_eq_true, Bool.and_eq_true, beq_iff_eq] at h
    rcases h with ⟨⟨⟨rfl, rfl⟩, h3⟩, h4⟩ | ⟨⟨⟨rfl, rfl⟩, h3⟩, h4⟩
    · obtain ⟨hb1, hb2⟩ := isDigit_bounds h4
      rcases h3 with rfl | rfl
      · refine ⟨by decide, by decide, by decide, h4, ?_⟩
        simp only [fourDigitVal]
        rw [show ('2' : Char).toNat = 50 from rfl, show ('0' : Char).toNat = 48 from rfl,
            show ('1' : Char).toNat = 49 from rfl]
        omega
      · refine ⟨by decide, by decide, by decide, h4, ?_⟩
        simp only [fourDigitVal]
        rw [show ('2' : Char).toNat = 50 from rfl, show ('0' : Char).toNat = 48 from rfl]
        omega
    · obtain ⟨hb1, hb2⟩ := isDigit_bounds h4
      rcases h3 with rfl | rfl
      · refine ⟨by decide, by decide, by decide, h4, ?_⟩
        simp only [fourDigitVal]
        rw [show ('1' : Char).toNat = 49 from rfl, show ('9' : Char).toNat = 57 from rfl,
            show ('8' : Char).toNat = 56 from rfl]
        omega
      · refine ⟨by decide, by decide, by decide, h4, ?_⟩
        simp only [fourDigitVal]
        rw [show ('1' : Char).toNat = 49 from rfl, show ('9' : Char).toNat = 57 from rfl]
        omega
  · rintro ⟨hd1, hd2, hd3, hd4, hrange⟩
    obtain ⟨b11, b12⟩ := isDigit_bounds hd1
    obtain ⟨b21, b22⟩ := isDigit_bounds hd2
    obtain ⟨b31, b32⟩ := isDigit_bounds hd3
    obtain ⟨b41, b42⟩ := isDigit_bounds hd4
    simp only [yearMatch, Bool.or_eq_true, Bool.and_eq_true, beq_iff_eq]
    simp only [fourDigitVal] at hrange
    rcases hrange with ⟨hlo, hhi⟩ | ⟨hlo, hhi⟩
    · have hc1 : c1.toNat = 49 := by omega
      have hc2 : c2.toNat = 57 := by omega
      have hc3 : c3.toNat = 56 ∨ c3.toNat = 57 := by omega
      refine Or.inr ⟨⟨⟨char_eq_of_toNat c1 '1' (by rw [hc1]; rfl),
        char_eq_of_toNat c2 '9' (by rw [hc2]; rfl)⟩, ?_⟩, hd4⟩
      rcases hc3 with h | h
      · exact Or.inl (char_eq_of_toNat c3 '8' (by rw [h]; rfl))
      · exact Or.inr (char_eq_of_toNat c3 '9' (by rw [h]; rfl))
    · have hc1 : c1.toNat = 50 := by omega
      have hc2 : c2.toNat = 48 := by omega
      have hc3 : c3.toNat = 49 ∨ c3.toNat = 50 := by omega
      refine Or.inl ⟨⟨⟨char_eq_of_toNat c1 '2' (by rw [hc1]; rfl),
        char_eq_of_toNat c2 '0' (by rw [hc2]; rfl)⟩, ?_⟩, hd4⟩
      rcases hc3 with h | h
      · exact Or.inl (char_eq_of_toNat c3 '1' (by rw [h]; rfl))
      · exact Or.inr (char_eq_of_toNat c3 '2' (by rw [h]; rfl))

theorem findYears_ranges : ∀ (cs : List Char), ∀ z ∈ findYears cs,
    ∃ d1 d2 d3 d4, z = String.mk [d1, d2, d3, d4] ∧ yearMatch d1 d2 d3 d4 = true
  | c1 :: c2 :: c3 :: c4 :: rest, z, hz => by
      rw [findYears] at hz
      by_cases hm : yearMatch c1 c2 c3 c4 = true
      · rw [if_pos hm] at hz
        rcases List.mem_cons.mp hz with rfl | hz2
        · exact ⟨c1, c2, c3, c4, rfl, hm⟩
        · exact findYears_ranges rest z hz2
      · rw [if_neg hm] at hz
        exact findYears_ranges (c2 :: c3 :: c4 :: rest) z hz
  | [], z, hz => by simp [findYears] at hz
  | [c1], z, hz => by simp [findYears] at hz
  | [c1, c2], z, hz => by simp [findYears] at hz
  | [c1, c2, c3], z, hz => by simp [findYears] at hz

theorem findYears_eq_nil_iff : ∀ cs : List Char,
    findYears cs = [] ↔ containsYearMatch cs = false
  | c1 :: c2 :: c3 :: c4 :: rest => by
      rw [findYears, containsYearMatch]
      by_cases hm : yearMatch c1 c2 c3 c4 = true
      · simp [hm]
      · rw [Bool.not_eq_true] at hm
        simp only [hm, if_false, Bool.false_or]
        exact findYears_eq_nil_iff (c2 :: c3 :: c4 :: rest)
  | [] => by simp [findYears, containsYearMatch]
  | [c1] => by simp [findYears, containsYearMatch]
  | [c1, c2] => by simp [findYears, containsYearMatch]
  | [c1, c2, c3] => by simp [findYears, containsYearMatch]

theorem seqTag_ne_ano (x y : String) : seqTag x ≠ "ano " ++ y := by
  rw [seqTag]
  exact str_append_ne_of_head_ne _ _ _ _ 's' 'a' rfl rfl (by decide)

theorem wordTag_ne_ano (x y : String) : wordTag x ≠ "ano " ++ y := by
  rw [wordTag]
  exact str_append_ne_of_head_ne _ _ _ _ 'p' 'a' rfl rfl (by decide)

theorem repTag_ne_ano (y : String) : "caracteres repetidos" ≠ "ano " ++ y := by
  rw [show ("caracteres repetidos" : String) = "c" ++ "aracteres repetidos" by decide]
  exact str_append_ne_of_head_ne _ _ _ _ 'c' 'a' rfl rfl (by decide)

theorem ano_inj {y y0 : String} (h : "ano " ++ y = "ano " ++ y0) : y = y0 := by
  have hd := congrArg String.data h
  rw [String.data_append, String.data_append] at hd
  exact String.ext (List.append_cancel_left hd)

theorem mem_detect_year_iff (s y : String) :
    ("ano " ++ y) ∈ detect_weak_patterns s ↔ (findYears s.data).head? = some y := by
  rw [detect_weak_patterns]
  simp only [List.mem_append]
  constructor
  · rintro (((h | h) | h) | h)
    · obtain ⟨x, _, hx⟩ := List.mem_map.mp h
      exact absurd hx (seqTag_ne_ano x y)
    · cases hfy : findYears s.data with
      | nil => rw [hfy] at h; simp at h
      | cons y0 tl =>
          rw [hfy] at h
          simp only [List.mem_singleton] at h
          simp [ano_inj h]
    · obtain ⟨x, _, hx⟩ := List.mem_map.mp h
      exact absurd hx (wordTag_ne_ano x y)
    · split at h
      · simp only [List.mem_singleton] at h
        exact absurd h.symm (repTag_ne_ano y)
      · simp at h
  · intro h
    cases hfy : findYears s.data with
    | nil => rw [hfy] at h; simp at h
    | cons y0 tl =>
        rw [hfy] at h
        simp only [List.head?_cons, Option.some.injEq] at h
        refine Or.inl (Or.inl (Or.inr ?_))
        rw [← h]
        simp

/-- **C4 (amended).** The year tags of `detect_weak_patterns` are governed by
`findYears` (the model of `re.findall` for `20[12][0-9]|19[89][0-9]`):
a tag `"ano Y"` is reported iff `Y` is the *first* (leftmost,
non-overlapping) match — later matches are not reported — and every match is
a 4-digit number in 1980–1999 or 2010–2029, so the years 2000–2009 are never
detected; no year tag is reported iff the value contains no match at all. -/
theorem year_detector_first_match_ranges (s y : String) :
    (("ano " ++ y) ∈ detect_weak_patterns s ↔ (findYears s.data).head? = some y) ∧
    (∀ z ∈ findYears s.data, ∃ d1 d2 d3 d4 : Char,
        z = String.mk [d1, d2, d3, d4] ∧
        d1.isDigit = true ∧ d2.isDigit = true ∧ d3.isDigit = true ∧ d4.isDigit = true ∧
        ((1980 ≤ fourDigitVal d1 d2 d3 d4 ∧ fourDigitVal d1 d2 d3 d4 ≤ 1999) ∨
         (2010 ≤ fourDigitVal d1 d2 d3 d4 ∧ fourDigitVal d1 d2 d3 d4 ≤ 2029))) ∧
    (findYears s.data = [] ↔ containsYearMatch s.data = false) := by
  refine ⟨mem_detect_year_iff s y, ?_, findYears_eq_nil_iff s.data⟩
  intro z hz
  obtain ⟨d1, d2, d3, d4, rfl, hm⟩ := findYears_ranges s.data z hz
  obtain ⟨h1, h2, h3, h4, hr⟩ := (yearMatch_iff d1 d2 d3 d4).mp hm
  exact ⟨d1, d2, d3, d4, rfl, h1, h2, h3, h4, hr⟩

/-- Witness for C4: in `"x1984"` the leftmost match `1984` is reported. -/
theorem year_detector_first_match_ranges_witness :
    ("ano " ++ "1984") ∈ detect_weak_patterns "x1984" :=
  (year_detector_first_match_ranges "x1984" "1984").1.mpr (by decide)

/-- **C4 counterexample.** The claim as stated is false on two counts: the
year 2005 (inside the claimed range 1980–2029) occurring in `"x2005y"`
produces *no* tag at all, and of the two years in `"19801990"` only the
first is reported. -/
theorem year_detector_counterexample :
    detect_weak_patterns "x2005y" = [] ∧
    detect_weak_patterns "19801990" = ["ano 1980"] := by
  constructor
  · decide
  · decide

/-! ## Claim C7: error handling of unparseable input -/

/-- Is an `Except` computation successful? -/
def exOk {α : Type} : Except String α → Bool
  | .ok _ => true
  | .error _ => false

theorem processField_isOk (iid : Json) (st : HState) (f : Json) :
    exOk (processField iid st f) = fieldOK f := by
  cases f with
  | obj kvs =>
      simp only [processField, fieldOK]
      by_cases hc : ((jlookup kvs "type").getD Json.null == Json.str "CONCEALED") = true
        <;> by_cases ht : ((jlookup kvs "value").getD (Json.str "")).truthy = true
        <;> simp only [hc, ht, Bool.and_true, Bool.and_false, Bool.true_and, Bool.false_and,
              Bool.not_true, Bool.not_false, if_true, if_false, Bool.false_eq_true]
        <;> cases hv : (jlookup kvs "value").getD (Json.str "")
        <;> simp [exOk, pySlice200]
  | str s => rfl
  | num n => rfl
  | bool b => rfl
  | null => rfl
  | arr l => rfl

theorem processFields_isOk (iid : Json) : ∀ (fs : List Json) (st : HState),
    exOk (processFields iid st fs) = fs.all fieldOK
  | [], st => rfl
  | f :: fs, st => by
      have h := processField_isOk iid st f
      rw [List.all_cons, ← h]
      cases hpf : processField iid st f with
      | error e => simp [processFields, hpf, exOk]
      | ok p =>
          obtain ⟨pf, st2⟩ := p
          have h2 := processFields_isOk iid fs st2
          rw [← h2]
          cases hrest : processFields iid st2 fs with
          | error e => simp [processFields, hpf, hrest, exOk]
          | ok p2 =>
              obtain ⟨pfs, st3⟩ := p2
              simp [processFields, hpf, hrest, exOk]

theorem processItem_isOk (n : Nat) (st : HState) (it : Json) :
    exOk (processItem n st it) = itemOK it := by
  cases it with
  | obj kvs =>
      simp only [processItem, itemOK]
      cases hit : Json.pyIter ((jlookup kvs "fields").getD (.arr [])) with
      | error e => rfl
      | ok fs =>
          dsimp only
          have h := processFields_isOk ((jlookup kvs "id").getD
            (.str ("unknown_" ++ toString n))) fs st
          rw [← h]
          cases hpf : processFields ((jlookup kvs "id").getD
              (.str ("unknown_" ++ toString n))) st fs with
          | error e => simp [exOk]
          | ok p =>
              obtain ⟨pfs, st2⟩ := p
              simp [exOk]
  | str s => rfl
  | num n2 => rfl
  | bool b => rfl
  | null => rfl
  | arr l => rfl

theorem processItems_isOk : ∀ (its : List Json) (n : Nat) (st : HState),
    exOk (processItems n st its) = its.all itemOK
  | [], _, _ => rfl
  | it :: its, n, st => by
      have h := processItem_isOk n st it
      rw [List.all_cons, ← h]
      cases hpi : processItem n st it with
      | error e => simp [processItems, hpi, exOk]
      | ok p =>
          obtain ⟨pi2, st2⟩ := p
          have h2 := processItems_isOk its (n + 1) st2
          rw [← h2]
          cases hrest : processItems (n + 1) st2 its with
          | error e => simp [processItems, hpi, hrest, exOk]
          | ok p2 =>
              obtain ⟨pis, st3⟩ := p2
              simp [processItems, hpi, hrest, exOk]

/-- **C7.** `sanitize_json_input` returns an empty error string exactly when
the input parses as JSON and has the expected vault-item shape
(`wellShaped`); whenever it reports an error — parse failure, wrong
top-level shape, or an exception while processing — the returned item list
is empty (no partially parsed items), and no exception escapes (the function
is total, returning the structured error string instead). -/
theorem sanitize_error_iff_malformed (input : Except String Json) :
    ((sanitize_json_input input).2 = "" ↔ wellShaped input = true) ∧
    ((sanitize_json_input input).2 ≠ "" → (sanitize_json_input input).1 = []) := by
  cases input with
  | error e =>
      refine ⟨⟨fun h => absurd h (str_append_ne_empty "JSON inválido: " e (by decide)),
              fun h => by simp [wellShaped] at h⟩, fun _ => rfl⟩
  | ok data =>
      cases data with
      | str s =>
          have hs : sanitize_json_input (.ok (.str s)) =
              ([], "Formato inválido: esperado objeto ou array JSON") := rfl
          rw [hs]
          exact ⟨⟨fun h => absurd h (by decide), fun h => by simp [wellShaped, dataOK] at h⟩,
                 fun _ => rfl⟩
      | num n =>
          have hs : sanitize_json_input (.ok (.num n)) =
              ([], "Formato inválido: esperado objeto ou array JSON") := rfl
          rw [hs]
          exact ⟨⟨fun h => absurd h (by decide), fun h => by simp [wellShaped, dataOK] at h⟩,
                 fun _ => rfl⟩
      | bool b =>
          have hs : sanitize_json_input (.ok (.bool b)) =
              ([], "Formato inválido: esperado objeto ou array JSON") := rfl
          rw [hs]
          exact ⟨⟨fun h => absurd h (by decide), fun h => by simp [wellShaped, dataOK] at h⟩,
                 fun _ => rfl⟩
      | null =>
          have hs : sanitize_json_input (.ok .null) =
              ([], "Formato inválido: esperado objeto ou array JSON") := rfl
          rw [hs]
          exact ⟨⟨fun h => absurd h (by decide), fun h => by simp [wellShaped, dataOK] at h⟩,
                 fun _ => rfl⟩
      | arr l =>
          have hok := processItems_isOk l 0 []
          cases hp : processItems 0 [] l with
          | error e2 =>
              rw [hp] at hok
              simp only [exOk] at hok
              have hs : sanitize_json_input (.ok (.arr l)) =
                  ([], "Erro ao processar: " ++ e2) := by
                simp [sanitize_json_input, normalizeItems, hp]
              rw [hs]
              refine ⟨⟨fun h =>
                  absurd h (str_append_ne_empty "Erro ao processar: " e2 (by decide)),
                fun h => ?_⟩, fun _ => rfl⟩
              rw [wellShaped, dataOK] at h
              rw [h] at hok
              exact absurd hok.symm (by decide)
          | ok p =>
              obtain ⟨processed, hashes⟩ := p
              rw [hp] at hok
              simp only [exOk] at hok
              have hs : sanitize_json_input (.ok (.arr l)) =
                  (markDuplicates hashes processed, "") := by
                simp [sanitize_json_input, normalizeItems, hp]
              rw [hs]
              exact ⟨⟨fun _ => by rw [wellShaped, dataOK, ← hok], fun _ => rfl⟩,
                     fun h => absurd rfl h⟩
      | obj kvs =>
          cases hj : jlookup kvs "items" with
          | none =>
              have hok := processItems_isOk [Json.obj kvs] 0 []
              cases hp : processItems 0 [] [Json.obj kvs] with
              | error e2 =>
                  rw [hp] at hok
                  simp only [exOk] at hok
                  have hs : sanitize_json_input (.ok (.obj kvs)) =
                      ([], "Erro ao processar: " ++ e2) := by
                    simp [sanitize_json_input, normalizeItems, hj, hp]
                  rw [hs]
                  refine ⟨⟨fun h =>
                      absurd h (str_append_ne_empty "Erro ao processar: " e2 (by decide)),
                    fun h => ?_⟩, fun _ => rfl⟩
                  simp only [wellShaped, dataOK, hj] at h
                  simp [h] at hok
              | ok p =>
                  obtain ⟨processed, hashes⟩ := p
                  rw [hp] at hok
                  simp only [exOk] at hok
                  have hs : sanitize_json_input (.ok (.obj kvs)) =
                      (markDuplicates hashes processed, "") := by
                    simp [sanitize_json_input, normalizeItems, hj, hp]
                  rw [hs]
                  refine ⟨⟨fun _ => ?_, fun _ => rfl⟩, fun h => absurd rfl h⟩
                  simp only [wellShaped, dataOK, hj]
                  simp at hok
                  simp [hok]
          | some j =>
              cases hpy : j.pyIter with
              | error e2 =>
                  have hs : sanitize_json_input (.ok (.obj kvs)) =
                      ([], "Erro ao processar: " ++ e2) := by
                    simp [sanitize_json_input, normalizeItems, hj, hpy]
                  rw [hs]
                  refine ⟨⟨fun h =>
                      absurd h (str_append_ne_empty "Erro ao processar: " e2 (by decide)),
                    fun h => ?_⟩, fun _ => rfl⟩
                  simp only [wellShaped, dataOK, hj, hpy] at h
                  exact absurd h (by decide)
              | ok its =>
                  have hok := processItems_isOk its 0 []
                  cases hp : processItems 0 [] its with
                  | error e2 =>
                      rw [hp] at hok
                      simp only [exOk] at hok
                      have hs : sanitize_json_input (.ok (.obj kvs)) =
                          ([], "Erro ao processar: " ++ e2) := by
                        simp [sanitize_json_input, normalizeItems, hj, hpy, hp]
                      rw [hs]
                      refine ⟨⟨fun h =>
                          absurd h (str_append_ne_empty "Erro ao processar: " e2 (by decide)),
                        fun h => ?_⟩, fun _ => rfl⟩
                      simp only [wellShaped, dataOK, hj, hpy] at h
                      rw [h] at hok
                      exact absurd hok.symm (by decide)
                  | ok p =>
                      obtain ⟨processed, hashes⟩ := p
                      rw [hp] at hok
                      simp only [exOk] at hok
                      have hs : sanitize_json_input (.ok (.obj kvs)) =
                          (markDuplicates hashes processed, "") := by
                        simp [sanitize_json_input, normalizeItems, hj, hpy, hp]
                      rw [hs]
                      refine ⟨⟨fun _ => ?_, fun _ => rfl⟩, fun h => absurd rfl h⟩
                      simp only [wellShaped, dataOK, hj, hpy, ← hok]

/-- Witness for C7: an integer input is rejected with an empty item list; a
well-shaped input yields an empty error string. -/
theorem sanitize_error_iff_malformed_witness :
    (sanitize_json_input (.ok (Json.num 3))).1 = [] ∧
    (sanitize_json_input (.ok (Json.arr []))).2 = "" :=
  ⟨(sanitize_error_iff_malformed (.ok (Json.num 3))).2 (by decide),
   (sanitize_error_iff_malformed (.ok (Json.arr []))).1.mpr (by decide)⟩
